import Mathlib

/-!
Verification of the PPI network analyzer script (`LAB3-TAY_CHING_XIAN.py`):
a shallow embedding of its fetch-result parsing, graph construction and
centrality-ranking pipeline, with theorems settling the specification's
claims about it.

Score arithmetic is modelled over `ℚ`.  Python exceptions are modelled with
`Except`: a value `Except.error e` escaping a modelled function corresponds
to an exception propagating out of the corresponding Python code with no
`try`/`except` around it, while caught exceptions are folded into the
ordinary return value exactly where the script's own `except` blocks do so.
-/

/-- A row of a pandas `DataFrame`, modelled as an association list from
column name to cell value (every cell this script reads is a string). -/
abbrev Row := List (String × String)

/-- Python `row[c]` for a row of a DataFrame: the value stored under column
`c`.  The script only reads columns whose presence it has checked, so the
default for a miss is never exercised. -/
def rowGet (row : Row) (c : String) : String :=
  ((row.find? (fun p => p.1 == c)).map Prod.snd).getD ""

/-- A pandas `DataFrame` as the script uses it: a list of column names and a
list of rows. -/
structure DataFrame where
  columns : List String
  rows : List Row
deriving Repr, DecidableEq

/-- Pandas `df.empty`: the frame holds no rows. -/
def DataFrame.isEmpty (df : DataFrame) : Bool :=
  df.rows.isEmpty

/-- An undirected simple graph as networkx's `nx.Graph` stores it: nodes in
insertion order, and every undirected edge exactly once, in the orientation
in which it was first added.  Self-loops are permitted. -/
structure Graph where
  nodes : List String
  edges : List (String × String)
deriving Repr, DecidableEq

/-- `nx.Graph()`: the empty graph. -/
def Graph.empty : Graph := ⟨[], []⟩

/-- Node insertion as `add_edge` performs it: a node already present is left
alone, a new one is appended after the existing nodes. -/
def addNode (g : Graph) (u : String) : Graph :=
  if u ∈ g.nodes then g else { g with nodes := g.nodes ++ [u] }

/-- Whether the graph already stores the undirected edge between `u` and
`v`, in either orientation. -/
def hasEdge (g : Graph) (u v : String) : Bool :=
  g.edges.any (fun e => (e.1 == u && e.2 == v) || (e.1 == v && e.2 == u))

/-- Edge insertion on a graph already holding both endpoints: the undirected
edge is stored unless present, so `nx.Graph` keeps no multi-edges. -/
def addEdgeAux (g : Graph) (u v : String) : Graph :=
  if hasEdge g u v then g else { g with edges := g.edges ++ [(u, v)] }

/-- `G.add_edge(u, v)`: inserts both endpoints as nodes (in order `u`, `v`),
then the undirected edge between them unless it is already present. -/
def addEdge (g : Graph) (u v : String) : Graph :=
  addEdgeAux (addNode (addNode g u) v) u v

/-- `generate_network(dataframe)`: starts from `nx.Graph()` and, when both
protein columns are present, adds one edge per row; otherwise the dataframe
is ignored and the empty graph is returned. -/
def generate_network (df : DataFrame) : Graph :=
  if "Protein_A" ∈ df.columns ∧ "Protein_B" ∈ df.columns then
    df.rows.foldl
      (fun g row => addEdge g (rowGet row "Protein_A") (rowGet row "Protein_B"))
      Graph.empty
  else Graph.empty

/-- The interaction table built from a plain list of
(`Protein_A`, `Protein_B`) pairs, laid out as `pd.DataFrame` lays out a list
of dicts with those two keys. -/
def dfOfRecords (recs : List (String × String)) : DataFrame :=
  ⟨["Protein_A", "Protein_B"],
   recs.map (fun r => [("Protein_A", r.1), ("Protein_B", r.2)])⟩

/-- `G.degree(n)` in networkx: every incident edge counts once, except a
self-loop, which counts twice. -/
def degree (g : Graph) (n : String) : Nat :=
  (g.edges.map
    (fun e => (if e.1 == n then 1 else 0) + (if e.2 == n then 1 else 0))).sum

/-- `nx.degree_centrality(G)`: each node's degree divided by `N - 1`; a
graph with at most one node is not divided (each node present gets score 1).
The resulting dict is keyed by the nodes in insertion order. -/
def degree_centrality (g : Graph) : List (String × ℚ) :=
  if g.nodes.length ≤ 1 then g.nodes.map (fun n => (n, 1))
  else g.nodes.map
    (fun n => (n, (degree g n : ℚ) / ((g.nodes.length : ℚ) - 1)))

/-- The order used by `sorted(..., key=lambda x: x[1], reverse=True)`:
`a` may precede `b` when `a`'s score is at least `b`'s. -/
def scoreGE (a b : String × ℚ) : Prop := b.2 ≤ a.2

instance : DecidableRel scoreGE :=
  fun a b => inferInstanceAs (Decidable (b.2 ≤ a.2))

instance : IsTotal (String × ℚ) scoreGE :=
  ⟨fun a b => le_total b.2 a.2⟩

instance : IsTrans (String × ℚ) scoreGE :=
  ⟨fun _ _ _ h1 h2 => le_trans h2 h1⟩

/-- Python's `sorted(items, key=lambda x: x[1], reverse=True)`: a stable
sort placing larger scores first, ties kept in input order. -/
def sortDescByScore (cent : List (String × ℚ)) : List (String × ℚ) :=
  cent.insertionSort scoreGE

/-- `top_5_nodes = sorted(degree_cent.items(), key=..., reverse=True)[:5]`. -/
def top_5_nodes (cent : List (String × ℚ)) : List (String × ℚ) :=
  (sortDescByScore cent).take 5

/-- `sorted_cent = sorted(cent_dict.items(), key=..., reverse=True)[:10]`:
the list actually displayed for each measure. -/
def sorted_cent (cent : List (String × ℚ)) : List (String × ℚ) :=
  (sortDescByScore cent).take 10

/-- Two stored edge entries describe the same undirected edge. -/
def sameEdge (e f : String × String) : Prop :=
  (e.1 = f.1 ∧ e.2 = f.2) ∨ (e.1 = f.2 ∧ e.2 = f.1)

/-- The structural invariants `nx.Graph` maintains: nodes are distinct,
every edge endpoint is a node, and no undirected edge is stored twice. -/
structure Graph.WF (g : Graph) : Prop where
  nodes_nodup : g.nodes.Nodup
  ends_mem : ∀ e ∈ g.edges, e.1 ∈ g.nodes ∧ e.2 ∈ g.nodes
  edges_distinct : g.edges.Pairwise (fun e f => ¬ sameEdge e f)

/-- A parsed BioGRID JSON response: a mapping from interaction id to the
record object, itself a mapping from field name to value. -/
abbrev BiogridData := List (String × List (String × String))

/-- Python `value[k]` on a JSON object: the stored value, or a `KeyError`
carrying the missing key. -/
def dictGet (d : List (String × String)) (k : String) : Except String String :=
  match d.find? (fun p => p.1 == k) with
  | some p => .ok p.2
  | none => .error k

/-- The row-building loop of `retrieve_ppi_biogrid`: each response record is
read at `OFFICIAL_SYMBOL_A`, `OFFICIAL_SYMBOL_B` and `EXPERIMENTAL_SYSTEM`,
and the values are used verbatim.  A missing field raises `KeyError`, which
aborts the whole loop. -/
def parse_biogrid_rows : BiogridData → Except String (List Row)
  | [] => .ok []
  | kv :: rest =>
    match dictGet kv.2 "OFFICIAL_SYMBOL_A" with
    | .error e => .error e
    | .ok a =>
      match dictGet kv.2 "OFFICIAL_SYMBOL_B" with
      | .error e => .error e
      | .ok b =>
        match dictGet kv.2 "EXPERIMENTAL_SYSTEM" with
        | .error e => .error e
        | .ok ex =>
          match parse_biogrid_rows rest with
          | .error e => .error e
          | .ok tail =>
            .ok ([("Protein_A", a), ("Protein_B", b),
                  ("Experimental_System", ex)] :: tail)

/-- `retrieve_ppi_biogrid` after its HTTP GET, taking the response status
code and parsed JSON body as inputs.  On status 200 with a nonempty body the
interaction table is built; any exception in the loop is caught by the
surrounding `except`, which reports the error and falls through to the final
`return pd.DataFrame()`; a non-200 status or an empty body also falls
through to that empty frame. -/
def retrieve_ppi_biogrid (status : Nat) (data : BiogridData) : DataFrame :=
  if status == 200 then
    if data.isEmpty then ⟨[], []⟩
    else
      match parse_biogrid_rows data with
      | .ok rows => ⟨["Protein_A", "Protein_B", "Experimental_System"], rows⟩
      | .error _ => ⟨[], []⟩
  else ⟨[], []⟩

/-- networkx's convergence failure for `eigenvector_centrality`:
`PowerIterationFailedConvergence(max_iter)`. -/
structure PowerIterationFailedConvergence where
  maxIter : Nat
deriving Repr, DecidableEq

/-- Modelled from the spec: `nx.betweenness_centrality(G)` — the normalized
fraction of all-pairs shortest paths through each node.  The numeric score
is computed inside the graph library, whose code is not part of this
repository; it is abstracted as the parameter `score`, while the shape the
spec fixes — one score per node of the graph, keyed in node order — is
kept. -/
def betweenness_centrality (score : Graph → String → ℚ) (g : Graph) :
    List (String × ℚ) :=
  g.nodes.map (fun n => (n, score g n))

/-- Modelled from the spec: `nx.closeness_centrality(G)` — scaled inverse
average shortest-path distance.  As with betweenness, the numeric score is a
library internal abstracted as `score`; the result assigns a score to each
node of the graph. -/
def closeness_centrality (score : Graph → String → ℚ) (g : Graph) :
    List (String × ℚ) :=
  g.nodes.map (fun n => (n, score g n))

/-- Modelled from the spec: `nx.pagerank(G)` — the damped random-walk
stationary distribution.  The numeric score is a library internal
abstracted as `score`; the result assigns a score to each node. -/
def pagerank (score : Graph → String → ℚ) (g : Graph) :
    List (String × ℚ) :=
  g.nodes.map (fun n => (n, score g n))

/-- Modelled from the spec: `nx.eigenvector_centrality(G, max_iter=1000)` —
power iteration on the adjacency matrix that either converges, yielding one
score per node, or raises `PowerIterationFailedConvergence(1000)`.  The
iteration's numerics are library internals, abstracted as `conv`: `none`
models a run that fails to converge within the 1000-iteration bound. -/
def eigenvector_centrality (conv : Graph → Option (String → ℚ)) (g : Graph) :
    Except PowerIterationFailedConvergence (List (String × ℚ)) :=
  match conv g with
  | none => .error ⟨1000⟩
  | some score => .ok (g.nodes.map (fun n => (n, score n)))

/-- `get_centralities(network_graph)`: the five centrality dicts, in order.
The script wraps none of these calls in a handler, so an exception raised by
the eigenvector computation propagates to the caller — modelled by the
`Except` result. -/
def get_centralities (betw clos pr : Graph → String → ℚ)
    (conv : Graph → Option (String → ℚ)) (g : Graph) :
    Except PowerIterationFailedConvergence (List (List (String × ℚ))) :=
  match eigenvector_centrality conv g with
  | .error f => .error f
  | .ok eigenvector_cent =>
    .ok [degree_centrality g, betweenness_centrality betw g,
         closeness_centrality clos g, eigenvector_cent, pagerank pr g]

/-- What the Analyze Network click leaves on screen when the script finishes
without an uncaught exception. -/
inductive Outcome
  | shownError (msg : String)
  | shownWarning (msg : String)
  | rendered (network : Graph) (centralities : List (List (String × ℚ)))

/-- The result of one Analyze Network click: either an `Outcome` the script
itself displays, or an exception escaping the script uncaught; plus whether
the `retrieve_ppi_*` network call was reached at all. -/
structure RunResult where
  outcome : Except PowerIterationFailedConvergence Outcome
  fetchAttempted : Bool

/-- The Analyze Network button handler: the credential and identifier
checks, then fetch → build → analyze.  `df_ppi` stands for the result of the
`retrieve_ppi_*` call that would run in the else-branch (the HTTP response
is external input); `fetchAttempted` records whether that call is reached.
Nothing in the script catches an exception thrown by `get_centralities`, so
it escapes the handler as `Except.error`. -/
def analyze_button (database access_key protein_id : String)
    (df_ppi : DataFrame) (betw clos pr : Graph → String → ℚ)
    (conv : Graph → Option (String → ℚ)) : RunResult :=
  if database == "BioGRID" && access_key == "" then
    ⟨.ok (.shownError "❌ Please enter your BioGRID access key"), false⟩
  else if protein_id == "" then
    ⟨.ok (.shownError "❌ Please enter a protein ID"), false⟩
  else
    if !df_ppi.isEmpty then
      let network := generate_network df_ppi
      if network.nodes.length > 0 then
        match get_centralities betw clos pr conv network with
        | .ok cents => ⟨.ok (.rendered network cents), true⟩
        | .error f => ⟨.error f, true⟩
      else
        ⟨.ok (.shownWarning "⚠️ Network is empty. No nodes to analyze."), true⟩
    else
      ⟨.ok (.shownError "❌ No interactions found. Please check your input or try a different protein/database."), true⟩

/-- A centrality score function that is constantly zero, standing in for a
concrete library run in witnesses. -/
def zeroScore : Graph → String → ℚ := fun _ _ => 0

/-- An eigenvector run that never converges. -/
def noConv : Graph → Option (String → ℚ) := fun _ => none

/-- An eigenvector run that converges to the all-zero vector. -/
def constConv : Graph → Option (String → ℚ) := fun _ => some (fun _ => 0)

/-! ## Lemmas about the graph builder -/

theorem edges_addNode (g : Graph) (u : String) :
    (addNode g u).edges = g.edges := by
  unfold addNode
  split <;> rfl

theorem mem_addNode (g : Graph) (u x : String) :
    x ∈ (addNode g u).nodes ↔ x ∈ g.nodes ∨ x = u := by
  unfold addNode
  by_cases h : u ∈ g.nodes
  · rw [if_pos h]
    constructor
    · exact Or.inl
    · rintro (hx | rfl)
      · exact hx
      · exact h
  · rw [if_neg h]
    simp [List.mem_append]

theorem hasEdge_iff (g : Graph) (a b : String) :
    hasEdge g a b = true ↔
      ∃ e ∈ g.edges, (e.1 = a ∧ e.2 = b) ∨ (e.1 = b ∧ e.2 = a) := by
  unfold hasEdge
  simp

theorem hasEdge_addNode (g : Graph) (x a b : String) :
    hasEdge (addNode g x) a b = hasEdge g a b := by
  unfold hasEdge
  rw [edges_addNode]

theorem nodes_addEdgeAux (g : Graph) (u v : String) :
    (addEdgeAux g u v).nodes = g.nodes := by
  unfold addEdgeAux
  split <;> rfl

theorem edges_addEdgeAux (g : Graph) (u v : String) :
    (addEdgeAux g u v).edges =
      if hasEdge g u v then g.edges else g.edges ++ [(u, v)] := by
  unfold addEdgeAux
  split <;> simp_all

theorem nodes_addEdge (g : Graph) (u v x : String) :
    x ∈ (addEdge g u v).nodes ↔ x ∈ g.nodes ∨ x = u ∨ x = v := by
  unfold addEdge
  rw [nodes_addEdgeAux, mem_addNode, mem_addNode]
  tauto

theorem hasEdge_addEdge (g : Graph) (u v a b : String) :
    hasEdge (addEdge g u v) a b = true ↔
      hasEdge g a b = true ∨ (u = a ∧ v = b) ∨ (u = b ∧ v = a) := by
  unfold addEdge
  rw [hasEdge_iff, edges_addEdgeAux, hasEdge_addNode, hasEdge_addNode]
  rw [edges_addNode, edges_addNode]
  by_cases h : hasEdge g u v = true
  · rw [if_pos h, ← hasEdge_iff]
    constructor
    · exact Or.inl
    · rintro (hx | ⟨rfl, rfl⟩ | ⟨rfl, rfl⟩)
      · exact hx
      · exact h
      · rw [hasEdge_iff] at h ⊢
        obtain ⟨e, he, hor⟩ := h
        exact ⟨e, he, hor.symm⟩
  · rw [if_neg h]
    simp only [List.mem_append, List.mem_singleton]
    constructor
    · rintro ⟨e, he | rfl, hor⟩
      · exact Or.inl ((hasEdge_iff g a b).mpr ⟨e, he, hor⟩)
      · exact Or.inr hor
    · rintro (hx | hor)
      · obtain ⟨e, he, hor⟩ := (hasEdge_iff g a b).mp hx
        exact ⟨e, Or.inl he, hor⟩
      · exact ⟨(u, v), Or.inr rfl, hor⟩

theorem nodes_foldl (rs : List (String × String)) (g : Graph) (x : String) :
    x ∈ (rs.foldl (fun h r => addEdge h r.1 r.2) g).nodes ↔
      x ∈ g.nodes ∨ ∃ r ∈ rs, x = r.1 ∨ x = r.2 := by
  induction rs generalizing g with
  | nil => simp
  | cons r rs ih =>
    rw [List.foldl_cons, ih, nodes_addEdge]
    simp only [List.exists_mem_cons_iff]
    aesop

theorem hasEdge_foldl (rs : List (String × String)) (g : Graph) (a b : String) :
    hasEdge (rs.foldl (fun h r => addEdge h r.1 r.2) g) a b = true ↔
      hasEdge g a b = true ∨
        ∃ r ∈ rs, (r.1 = a ∧ r.2 = b) ∨ (r.1 = b ∧ r.2 = a) := by
  induction rs generalizing g with
  | nil => simp
  | cons r rs ih =>
    rw [List.foldl_cons, ih, hasEdge_addEdge]
    simp only [List.exists_mem_cons_iff]
    aesop

theorem generate_network_dfOfRecords (recs : List (String × String)) :
    generate_network (dfOfRecords recs) =
      recs.foldl (fun g r => addEdge g r.1 r.2) Graph.empty := by
  unfold generate_network dfOfRecords
  rw [if_pos (by simp)]
  rw [List.foldl_map]
  rfl

theorem wf_empty : Graph.WF Graph.empty := by
  constructor
  · exact List.nodup_nil
  · intro e he
    exact absurd he (List.not_mem_nil e)
  · exact List.Pairwise.nil

theorem wf_addNode (g : Graph) (u : String) (h : g.WF) : (addNode g u).WF := by
  constructor
  · unfold addNode
    split
    · exact h.nodes_nodup
    · next hu =>
      refine List.Nodup.append h.nodes_nodup (List.nodup_singleton u) ?_
      intro x hx hxu
      rw [List.mem_singleton] at hxu
      subst hxu
      exact hu hx
  · intro e he
    rw [edges_addNode] at he
    obtain ⟨h1, h2⟩ := h.ends_mem e he
    exact ⟨(mem_addNode g u _).mpr (Or.inl h1), (mem_addNode g u _).mpr (Or.inl h2)⟩
  · rw [edges_addNode]
    exact h.edges_distinct

theorem wf_addEdge (g : Graph) (u v : String) (h : g.WF) : (addEdge g u v).WF := by
  have h2 : (addNode (addNode g u) v).WF := wf_addNode _ v (wf_addNode g u h)
  unfold addEdge addEdgeAux
  split
  · exact h2
  · next hne =>
    constructor
    · exact h2.nodes_nodup
    · intro e he
      simp only [List.mem_append, List.mem_singleton] at he
      rcases he with he | rfl
      · exact h2.ends_mem e he
      · refine ⟨?_, ?_⟩
        · exact (mem_addNode _ v u).mpr (Or.inl ((mem_addNode g u u).mpr (Or.inr rfl)))
        · exact (mem_addNode _ v v).mpr (Or.inr rfl)
    · rw [List.pairwise_append]
      refine ⟨h2.edges_distinct, List.pairwise_singleton _ _, ?_⟩
      intro e he f hf
      rw [List.mem_singleton] at hf
      subst hf
      intro hsame
      apply hne
      rw [hasEdge_iff]
      exact ⟨e, he, hsame⟩

theorem wf_foldl {α : Type} (f1 f2 : α → String) (rs : List α) (g : Graph)
    (h : g.WF) : (rs.foldl (fun h r => addEdge h (f1 r) (f2 r)) g).WF := by
  induction rs generalizing g with
  | nil => exact h
  | cons r rs ih => exact ih _ (wf_addEdge _ _ _ h)

theorem wf_generate_network (df : DataFrame) : (generate_network df).WF := by
  unfold generate_network
  split
  · exact wf_foldl _ _ _ _ wf_empty
  · exact wf_empty

/-- Claim C1: for every record list, the graph `generate_network` builds has
node set exactly the endpoint names occurring in the list, and an undirected
edge between `a` and `b` exists iff at least one record connects them, in
either orientation; duplicate and reversed records add no second edge — the
stored edges are pairwise distinct as undirected edges. -/
theorem generate_network_spec (recs : List (String × String)) (x a b : String) :
    (x ∈ (generate_network (dfOfRecords recs)).nodes ↔
      ∃ r ∈ recs, x = r.1 ∨ x = r.2) ∧
    (hasEdge (generate_network (dfOfRecords recs)) a b = true ↔
      ∃ r ∈ recs, (r.1 = a ∧ r.2 = b) ∨ (r.1 = b ∧ r.2 = a)) ∧
    (generate_network (dfOfRecords recs)).edges.Pairwise
      (fun e f => ¬ sameEdge e f) := by
  rw [generate_network_dfOfRecords]
  refine ⟨?_, ?_, ?_⟩
  · rw [nodes_foldl]
    simp [Graph.empty]
  · rw [hasEdge_foldl]
    simp [hasEdge, Graph.empty]
  · exact (wf_foldl _ _ recs Graph.empty wf_empty).edges_distinct

/-- Claim C2: on the records (A,B),(B,C),(A,C),(C,D) the built graph has
exactly the four nodes A,B,C,D and four edges; C's degree centrality is
3/3 = 1 and tops the ranking; and the top-5 hub list on this 4-node graph
holds all four nodes in descending degree order with C first. -/
theorem scenario_four_records :
    (generate_network (dfOfRecords
        [("A","B"),("B","C"),("A","C"),("C","D")])).nodes = ["A","B","C","D"] ∧
    (generate_network (dfOfRecords
        [("A","B"),("B","C"),("A","C"),("C","D")])).edges.length = 4 ∧
    degree_centrality (generate_network (dfOfRecords
        [("A","B"),("B","C"),("A","C"),("C","D")]))
      = [("A", 2/3), ("B", 2/3), ("C", 1), ("D", 1/3)] ∧
    top_5_nodes (degree_centrality (generate_network (dfOfRecords
        [("A","B"),("B","C"),("A","C"),("C","D")])))
      = [("C", 1), ("A", 2/3), ("B", 2/3), ("D", 1/3)] := by
  refine ⟨by rfl, by rfl, ?_, ?_⟩
  · simp +decide [degree_centrality, generate_network, dfOfRecords, addEdge,
      addEdgeAux, addNode, hasEdge, rowGet, degree, Graph.empty]
    norm_num
  · simp +decide [top_5_nodes, sortDescByScore, degree_centrality,
      generate_network, dfOfRecords, addEdge, addEdgeAux, addNode, hasEdge,
      rowGet, degree, scoreGE, List.insertionSort, List.orderedInsert,
      Graph.empty]
    norm_num [scoreGE, List.orderedInsert]

/-- Claim C10: `generate_network` applied to a table that lacks the
`Protein_A` or the `Protein_B` column returns the empty graph (zero nodes,
zero edges) instead of raising. -/
theorem generate_network_missing_columns (df : DataFrame)
    (h : "Protein_A" ∉ df.columns ∨ "Protein_B" ∉ df.columns) :
    generate_network df = Graph.empty := by
  unfold generate_network
  rw [if_neg]
  tauto

/-- The missing-column theorem applied to a concrete one-column table. -/
theorem generate_network_missing_columns_witness :
    generate_network ⟨["Score"], [[("Score", "1")]]⟩ = Graph.empty :=
  generate_network_missing_columns ⟨["Score"], [[("Score", "1")]]⟩
    (Or.inl (by decide))

/-! ## Degree bounds for self-loop-free graphs -/

theorem degree_eq_length_filter (l : List (String × String)) (n : String)
    (hs : ∀ e ∈ l, e.1 ≠ e.2) :
    (l.map (fun e =>
        (if e.1 == n then 1 else 0) + (if e.2 == n then 1 else 0))).sum
      = (l.filter (fun e => e.1 == n || e.2 == n)).length := by
  induction l with
  | nil => rfl
  | cons e l ih =>
    have he : e.1 ≠ e.2 := hs e (List.mem_cons_self e l)
    have ht : ∀ x ∈ l, x.1 ≠ x.2 := fun x hx => hs x (List.mem_cons_of_mem e hx)
    rw [List.map_cons, List.sum_cons, List.filter_cons]
    by_cases h1 : e.1 = n <;> by_cases h2 : e.2 = n
    · exact absurd (h1.trans h2.symm) he
    · rw [if_pos (show (e.1 == n || e.2 == n) = true by
          simp only [Bool.or_eq_true, beq_iff_eq]; exact Or.inl h1),
        if_pos (show (e.1 == n) = true by
          simp only [beq_iff_eq]; exact h1),
        if_neg (show ¬ (e.2 == n) = true by
          simp only [beq_iff_eq]; exact h2),
        List.length_cons, ih ht]
      omega
    · rw [if_pos (show (e.1 == n || e.2 == n) = true by
          simp only [Bool.or_eq_true, beq_iff_eq]; exact Or.inr h2),
        if_neg (show ¬ (e.1 == n) = true by
          simp only [beq_iff_eq]; exact h1),
        if_pos (show (e.2 == n) = true by
          simp only [beq_iff_eq]; exact h2),
        List.length_cons, ih ht]
      omega
    · rw [if_neg (show ¬ (e.1 == n || e.2 == n) = true by
          simp only [Bool.or_eq_true, beq_iff_eq, not_or]; exact ⟨h1, h2⟩),
        if_neg (show ¬ (e.1 == n) = true by
          simp only [beq_iff_eq]; exact h1),
        if_neg (show ¬ (e.2 == n) = true by
          simp only [beq_iff_eq]; exact h2),
        ih ht]
      omega

theorem nodup_otherEnds (g : Graph) (h : g.WF)
    (hs : ∀ e ∈ g.edges, e.1 ≠ e.2) (n : String) :
    ((g.edges.filter (fun e => e.1 == n || e.2 == n)).map
      (fun e => if e.1 == n then e.2 else e.1)).Nodup := by
  have hp : (g.edges.filter (fun e => e.1 == n || e.2 == n)).Pairwise
      (fun e f => ¬ sameEdge e f) := h.edges_distinct.filter _
  rw [List.Nodup, List.pairwise_map]
  refine hp.imp_of_mem ?_
  intro a b ha hb hne
  rw [List.mem_filter] at ha hb
  have ha2 : a.1 = n ∨ a.2 = n := by
    have := ha.2
    simp at this
    exact this
  have hb2 : b.1 = n ∨ b.2 = n := by
    have := hb.2
    simp at this
    exact this
  intro heq
  apply hne
  by_cases h1 : a.1 = n <;> by_cases h2 : b.1 = n
  · rw [if_pos (by simp [h1]), if_pos (by simp [h2])] at heq
    exact Or.inl ⟨h1.trans h2.symm, heq⟩
  · rw [if_pos (by simp [h1]), if_neg (by simp [h2])] at heq
    have hb3 : b.2 = n := hb2.resolve_left h2
    exact Or.inr ⟨h1.trans hb3.symm, heq⟩
  · rw [if_neg (by simp [h1]), if_pos (by simp [h2])] at heq
    have ha3 : a.2 = n := ha2.resolve_left h1
    exact Or.inr ⟨heq, ha3.trans h2.symm⟩
  · rw [if_neg (by simp [h1]), if_neg (by simp [h2])] at heq
    have ha3 : a.2 = n := ha2.resolve_left h1
    have hb3 : b.2 = n := hb2.resolve_left h2
    exact Or.inl ⟨heq, ha3.trans hb3.symm⟩

theorem degree_le_card (g : Graph) (h : g.WF)
    (hs : ∀ e ∈ g.edges, e.1 ≠ e.2) (n : String) (hn : n ∈ g.nodes) :
    degree g n ≤ g.nodes.length - 1 := by
  rw [degree, degree_eq_length_filter _ _ hs]
  have hlen : ((g.edges.filter (fun e => e.1 == n || e.2 == n)).map
      (fun e => if e.1 == n then e.2 else e.1)).length
      = (g.edges.filter (fun e => e.1 == n || e.2 == n)).length :=
    List.length_map _ _
  rw [← hlen]
  have hsub : ((g.edges.filter (fun e => e.1 == n || e.2 == n)).map
      (fun e => if e.1 == n then e.2 else e.1)) ⊆ g.nodes.erase n := by
    intro x hx
    rw [List.mem_map] at hx
    obtain ⟨e, he, rfl⟩ := hx
    rw [List.mem_filter] at he
    have hmem := h.ends_mem e he.1
    have hself : e.1 ≠ e.2 := hs e he.1
    have hinc : e.1 = n ∨ e.2 = n := by
      have := he.2
      simp at this
      exact this
    by_cases h1 : e.1 = n
    · rw [if_pos (by simp [h1])]
      have : e.2 ≠ n := fun hc => hself (h1.trans hc.symm)
      exact (List.mem_erase_of_ne this).mpr hmem.2
    · rw [if_neg (by simp [h1])]
      exact (List.mem_erase_of_ne h1).mpr hmem.1
  calc ((g.edges.filter (fun e => e.1 == n || e.2 == n)).map
      (fun e => if e.1 == n then e.2 else e.1)).length
      ≤ (g.nodes.erase n).length :=
        ((nodup_otherEnds g h hs n).subperm hsub).length_le
    _ = g.nodes.length - 1 := List.length_erase_of_mem hn

/-- Counterexample to claim C3 as stated: the builder keeps self-loops, and
on the records (A,A),(A,B) the degree centrality of A is 3, outside [0,1];
moreover on the single record (A,A) the graph has one node and the computed
mapping is [("A", 1)] — neither 0 nor empty. -/
theorem degree_centrality_out_of_range :
    degree_centrality (generate_network (dfOfRecords [("A","A"),("A","B")]))
      = [("A", 3), ("B", 1)] ∧
    ¬ ((3 : ℚ) ≤ 1) ∧
    degree_centrality (generate_network (dfOfRecords [("A","A")]))
      = [("A", 1)] ∧
    [(("A" : String), (1 : ℚ))] ≠ [] ∧ (1 : ℚ) ≠ 0 := by
  refine ⟨?_, by norm_num, ?_, by simp, by norm_num⟩
  · simp +decide [degree_centrality, generate_network, dfOfRecords, addEdge,
      addEdgeAux, addNode, hasEdge, rowGet, degree, Graph.empty]
    norm_num
  · rfl

/-- Claim C3 amended: over any graph the builder produces, the degree
centrality mapping assigns each node its degree divided by N−1 whenever
N ≥ 2, and those values lie in [0,1] provided the graph has no self-loops;
for N = 0 the mapping is empty and for N = 1 it assigns the single node the
score 1 (networkx does not return 0 there). -/
theorem degree_centrality_amended (df : DataFrame) :
    ((generate_network df).nodes = [] →
      degree_centrality (generate_network df) = []) ∧
    ((generate_network df).nodes.length = 1 →
      degree_centrality (generate_network df)
        = (generate_network df).nodes.map (fun n => (n, (1 : ℚ)))) ∧
    (2 ≤ (generate_network df).nodes.length →
      (∀ p ∈ degree_centrality (generate_network df),
        p.2 = (degree (generate_network df) p.1 : ℚ)
          / (((generate_network df).nodes.length : ℚ) - 1)) ∧
      ((∀ e ∈ (generate_network df).edges, e.1 ≠ e.2) →
        ∀ p ∈ degree_centrality (generate_network df),
          0 ≤ p.2 ∧ p.2 ≤ 1)) := by
  refine ⟨?_, ?_, ?_⟩
  · intro h
    rw [degree_centrality, if_pos (by rw [h]; decide), h]
    rfl
  · intro h
    rw [degree_centrality, if_pos (by omega)]
  · intro hlen
    have hq : (2 : ℚ) ≤ ((generate_network df).nodes.length : ℚ) := by
      exact_mod_cast hlen
    have hformula : ∀ p ∈ degree_centrality (generate_network df),
        p.2 = (degree (generate_network df) p.1 : ℚ)
          / (((generate_network df).nodes.length : ℚ) - 1) := by
      intro p hp
      rw [degree_centrality, if_neg (by omega)] at hp
      rw [List.mem_map] at hp
      obtain ⟨n, _, rfl⟩ := hp
      rfl
    refine ⟨hformula, ?_⟩
    intro hself p hp
    have hmem : p.1 ∈ (generate_network df).nodes := by
      have hp2 := hp
      rw [degree_centrality, if_neg (by omega), List.mem_map] at hp2
      obtain ⟨n, hn, rfl⟩ := hp2
      exact hn
    rw [hformula p hp]
    constructor
    · apply div_nonneg (Nat.cast_nonneg _)
      linarith
    · rw [div_le_one (by linarith)]
      calc (degree (generate_network df) p.1 : ℚ)
          ≤ (((generate_network df).nodes.length - 1 : ℕ) : ℚ) := by
            exact_mod_cast degree_le_card _ (wf_generate_network df) hself _ hmem
        _ = ((generate_network df).nodes.length : ℚ) - 1 := by
            rw [Nat.cast_sub (by omega)]
            norm_num

/-- The amended degree-centrality theorem applied to the concrete one-edge
table (A,B): both scores equal 1 = degree/(N−1) and lie in [0,1]. -/
theorem degree_centrality_amended_witness :
    (("A", (1 : ℚ)).2
      = (degree (generate_network (dfOfRecords [("A","B")])) ("A", (1 : ℚ)).1 : ℚ)
        / (((generate_network (dfOfRecords [("A","B")])).nodes.length : ℚ) - 1)) ∧
    (0 ≤ (("A", (1 : ℚ)).2) ∧ ("A", (1 : ℚ)).2 ≤ 1) := by
  have h := degree_centrality_amended (dfOfRecords [("A","B")])
  have hlen : 2 ≤ (generate_network (dfOfRecords [("A","B")])).nodes.length := by
    decide
  have hmem : ("A", (1 : ℚ)) ∈ degree_centrality
      (generate_network (dfOfRecords [("A","B")])) := by
    have : degree_centrality (generate_network (dfOfRecords [("A","B")]))
        = [("A", 1), ("B", 1)] := by
      simp +decide [degree_centrality, generate_network, dfOfRecords, addEdge,
        addEdgeAux, addNode, hasEdge, rowGet, degree, Graph.empty]
      norm_num
    rw [this]
    simp
  exact ⟨(h.2.2 hlen).1 _ hmem,
    (h.2.2 hlen).2 (by decide) _ hmem⟩

/-- Claim C5: with the BioGRID provider selected and an empty access key,
the handler shows the missing-credential error and the fetch call is never
reached. -/
theorem biogrid_missing_key (access_key protein_id : String) (df : DataFrame)
    (betw clos pr : Graph → String → ℚ) (conv : Graph → Option (String → ℚ))
    (h : access_key = "") :
    analyze_button "BioGRID" access_key protein_id df betw clos pr conv =
      ⟨.ok (.shownError "❌ Please enter your BioGRID access key"), false⟩ := by
  subst h
  rfl

/-- The missing-credential theorem applied at a concrete request. -/
theorem biogrid_missing_key_witness :
    analyze_button "BioGRID" "" "TP53" ⟨[], []⟩ zeroScore zeroScore zeroScore
        constConv =
      ⟨.ok (.shownError "❌ Please enter your BioGRID access key"), false⟩ :=
  biogrid_missing_key "" "TP53" ⟨[], []⟩ zeroScore zeroScore zeroScore
    constConv rfl

/-- Counterexample to claim C4 as stated: on a run where the eigenvector
power iteration fails to converge, the resulting
`PowerIterationFailedConvergence` is caught nowhere in the script — both
`get_centralities` and the whole button handler end in the uncaught
exception (`Except.error`), not in any displayed outcome. -/
theorem convergence_failure_uncaught :
    get_centralities zeroScore zeroScore zeroScore noConv
        (generate_network (dfOfRecords [("A","B")])) = .error ⟨1000⟩ ∧
    (analyze_button "STRING" "" "TP53" (dfOfRecords [("A","B")])
        zeroScore zeroScore zeroScore noConv).outcome = .error ⟨1000⟩ ∧
    (analyze_button "STRING" "" "TP53" (dfOfRecords [("A","B")])
        zeroScore zeroScore zeroScore noConv).fetchAttempted = true :=
  ⟨rfl, rfl, rfl⟩

/-- Claim C4 amended: whenever the input checks pass, the fetch returns rows
and the built network is nonempty, a non-convergent eigenvector run makes
`PowerIterationFailedConvergence` escape `get_centralities` and the whole
button handler uncaught; the script converts it into no displayed message. -/
theorem convergence_failure_propagates (database access_key protein_id : String)
    (df : DataFrame) (betw clos pr : Graph → String → ℚ)
    (conv : Graph → Option (String → ℚ))
    (h1 : ¬ (database = "BioGRID" ∧ access_key = ""))
    (h2 : protein_id ≠ "") (h3 : df.rows ≠ [])
    (h4 : 0 < (generate_network df).nodes.length)
    (h5 : conv (generate_network df) = none) :
    get_centralities betw clos pr conv (generate_network df) = .error ⟨1000⟩ ∧
    analyze_button database access_key protein_id df betw clos pr conv =
      ⟨.error ⟨1000⟩, true⟩ := by
  have hg : get_centralities betw clos pr conv (generate_network df)
      = .error ⟨1000⟩ := by
    rw [get_centralities, eigenvector_centrality, h5]
  have c1 : ¬ ((database == "BioGRID" && access_key == "") = true) := by
    simp only [Bool.and_eq_true, beq_iff_eq]
    exact h1
  have c2 : ¬ ((protein_id == "") = true) := by
    simp only [beq_iff_eq]
    exact h2
  have c3 : (!df.isEmpty) = true := by
    simp only [DataFrame.isEmpty, Bool.not_eq_true', List.isEmpty_eq_false]
    exact h3
  refine ⟨hg, ?_⟩
  simp only [analyze_button]
  rw [if_neg c1, if_neg c2, if_pos c3, if_pos h4, hg]

/-- The propagation theorem applied at a concrete request whose eigenvector
run does not converge. -/
theorem convergence_failure_propagates_witness :
    get_centralities zeroScore zeroScore zeroScore noConv
        (generate_network (dfOfRecords [("C","D")])) = .error ⟨1000⟩ ∧
    analyze_button "STRING" "" "MB" (dfOfRecords [("C","D")])
        zeroScore zeroScore zeroScore noConv = ⟨.error ⟨1000⟩, true⟩ :=
  convergence_failure_propagates "STRING" "" "MB" (dfOfRecords [("C","D")])
    zeroScore zeroScore zeroScore noConv (by decide) (by decide) (by decide)
    (by decide) rfl

/-- Counterexample to claim C6 as stated: a BioGRID record whose official
symbols are lower-case is parsed into the interaction row verbatim —
"tp53" and "mdm2" are used as the protein names even though they differ
from their upper-case forms. -/
theorem biogrid_symbols_not_uppercased :
    retrieve_ppi_biogrid 200
        [("1", [("OFFICIAL_SYMBOL_A", "tp53"), ("OFFICIAL_SYMBOL_B", "mdm2"),
                ("EXPERIMENTAL_SYSTEM", "Two-hybrid")])]
      = ⟨["Protein_A", "Protein_B", "Experimental_System"],
         [[("Protein_A", "tp53"), ("Protein_B", "mdm2"),
           ("Experimental_System", "Two-hybrid")]]⟩ ∧
    ("tp53" : String) ≠ "TP53" ∧ ("mdm2" : String) ≠ "MDM2" ∧
    ("tp53" : String).data.any Char.isLower = true :=
  ⟨rfl, by decide, by decide, by decide⟩

/-- Claim C6 amended: the parser takes `OFFICIAL_SYMBOL_A` and
`OFFICIAL_SYMBOL_B` verbatim as each row's `Protein_A` and `Protein_B`
values — no uppercasing (nor any other transformation) is applied. -/
theorem biogrid_symbols_verbatim (data : BiogridData) (rows : List Row)
    (h : parse_biogrid_rows data = .ok rows) :
    List.Forall₂ (fun kv row =>
      dictGet kv.2 "OFFICIAL_SYMBOL_A" = .ok (rowGet row "Protein_A") ∧
      dictGet kv.2 "OFFICIAL_SYMBOL_B" = .ok (rowGet row "Protein_B"))
      data rows := by
  induction data generalizing rows with
  | nil =>
    simp only [parse_biogrid_rows] at h
    injection h with h
    subst h
    exact List.Forall₂.nil
  | cons kv rest ih =>
    simp only [parse_biogrid_rows] at h
    split at h
    · exact absurd h (by simp)
    · split at h
      · exact absurd h (by simp)
      · split at h
        · exact absurd h (by simp)
        · split at h
          · exact absurd h (by simp)
          · injection h with h
            subst h
            exact List.Forall₂.cons ⟨by assumption, by assumption⟩
              (ih _ (by assumption))

/-- The verbatim-parsing theorem applied to a concrete one-record response. -/
theorem biogrid_symbols_verbatim_witness :
    List.Forall₂ (fun (kv : String × List (String × String)) (row : Row) =>
      dictGet kv.2 "OFFICIAL_SYMBOL_A" = .ok (rowGet row "Protein_A") ∧
      dictGet kv.2 "OFFICIAL_SYMBOL_B" = .ok (rowGet row "Protein_B"))
      [("1", [("OFFICIAL_SYMBOL_A", "TP53"), ("OFFICIAL_SYMBOL_B", "MDM2"),
              ("EXPERIMENTAL_SYSTEM", "Two-hybrid")])]
      [[("Protein_A", "TP53"), ("Protein_B", "MDM2"),
        ("Experimental_System", "Two-hybrid")]] :=
  biogrid_symbols_verbatim _ _ rfl

theorem parse_biogrid_rows_error_of_missing (data : BiogridData)
    (kv : String × List (String × String)) (hmem : kv ∈ data)
    (hmiss : dictGet kv.2 "EXPERIMENTAL_SYSTEM"
      = .error "EXPERIMENTAL_SYSTEM") :
    ∃ e, parse_biogrid_rows data = .error e := by
  induction data with
  | nil => cases hmem
  | cons hd rest ih =>
    rw [List.mem_cons] at hmem
    rcases hmem with rfl | hmem
    · simp only [parse_biogrid_rows]
      cases ha : dictGet kv.2 "OFFICIAL_SYMBOL_A" with
      | error e2 => exact ⟨e2, by simp only [ha]⟩
      | ok a =>
        cases hb : dictGet kv.2 "OFFICIAL_SYMBOL_B" with
        | error e2 => exact ⟨e2, by simp only [ha, hb]⟩
        | ok b => exact ⟨"EXPERIMENTAL_SYSTEM", by simp only [ha, hb, hmiss]⟩
    · obtain ⟨e, he⟩ := ih hmem
      simp only [parse_biogrid_rows]
      cases ha : dictGet hd.2 "OFFICIAL_SYMBOL_A" with
      | error e2 => exact ⟨e2, by simp only [ha]⟩
      | ok a =>
        cases hb : dictGet hd.2 "OFFICIAL_SYMBOL_B" with
        | error e2 => exact ⟨e2, by simp only [ha, hb]⟩
        | ok b =>
          cases hx : dictGet hd.2 "EXPERIMENTAL_SYSTEM" with
          | error e2 => exact ⟨e2, by simp only [ha, hb, hx]⟩
          | ok ex => exact ⟨e, by simp only [ha, hb, hx, he]⟩

/-- Counterexample to claim C8 as stated: a well-formed response whose
second record omits `EXPERIMENTAL_SYSTEM` yields no rows at all — the whole
fetch result degrades to the empty DataFrame instead of keeping the valid
first row. -/
theorem biogrid_missing_field_degrades :
    retrieve_ppi_biogrid 200
        [("1", [("OFFICIAL_SYMBOL_A", "TP53"), ("OFFICIAL_SYMBOL_B", "MDM2"),
                ("EXPERIMENTAL_SYSTEM", "Two-hybrid")]),
         ("2", [("OFFICIAL_SYMBOL_A", "BRCA1"),
                ("OFFICIAL_SYMBOL_B", "TP53")])]
      = ⟨[], []⟩ := rfl

/-- Claim C8 amended: `EXPERIMENTAL_SYSTEM` is required, not optional — any
response record missing it makes the row loop raise `KeyError`, the
surrounding `except` catches it, and the entire fetch returns the empty
DataFrame. -/
theorem biogrid_missing_experimental_system (data : BiogridData)
    (kv : String × List (String × String)) (hmem : kv ∈ data)
    (hmiss : kv.2.find? (fun p => p.1 == "EXPERIMENTAL_SYSTEM") = none) :
    (∃ e, parse_biogrid_rows data = .error e) ∧
    retrieve_ppi_biogrid 200 data = ⟨[], []⟩ := by
  have hget : dictGet kv.2 "EXPERIMENTAL_SYSTEM"
      = .error "EXPERIMENTAL_SYSTEM" := by
    rw [dictGet, hmiss]
  obtain ⟨e, he⟩ := parse_biogrid_rows_error_of_missing data kv hmem hget
  refine ⟨⟨e, he⟩, ?_⟩
  have hne : data.isEmpty = false := by
    cases data with
    | nil => cases hmem
    | cons hd rest => rfl
  rw [retrieve_ppi_biogrid]
  rw [if_pos (show ((200 : Nat) == 200) = true from rfl)]
  rw [if_neg (show ¬ (data.isEmpty = true) from by
    rw [hne]; exact fun hc => nomatch hc)]
  rw [he]

/-- The required-field theorem applied to a concrete one-record response
lacking `EXPERIMENTAL_SYSTEM`. -/
theorem biogrid_missing_experimental_system_witness :
    (∃ e, parse_biogrid_rows
        [("9", [("OFFICIAL_SYMBOL_A", "MB"), ("OFFICIAL_SYMBOL_B", "HBB")])]
      = .error e) ∧
    retrieve_ppi_biogrid 200
        [("9", [("OFFICIAL_SYMBOL_A", "MB"), ("OFFICIAL_SYMBOL_B", "HBB")])]
      = ⟨[], []⟩ :=
  biogrid_missing_experimental_system _ _ (List.mem_singleton.mpr rfl) rfl

theorem map_fst_pairing {β : Type} (f : String → β) (l : List String) :
    (l.map (fun n => (n, f n))).map Prod.fst = l := by
  induction l with
  | nil => rfl
  | cons a l ih => simp only [List.map_cons, ih]

theorem keys_degree_centrality (g : Graph) :
    (degree_centrality g).map Prod.fst = g.nodes := by
  rw [degree_centrality]
  split
  · exact map_fst_pairing _ _
  · exact map_fst_pairing _ _

theorem get_centralities_keys (betw clos pr : Graph → String → ℚ)
    (conv : Graph → Option (String → ℚ)) (g : Graph)
    (cents : List (List (String × ℚ)))
    (h : get_centralities betw clos pr conv g = .ok cents) :
    ∀ m ∈ cents, m.map Prod.fst = g.nodes := by
  rw [get_centralities] at h
  split at h
  · exact absurd h (by simp)
  · next eig hc =>
    injection h with h
    subst h
    have heig : eig.map Prod.fst = g.nodes := by
      rw [eigenvector_centrality] at hc
      split at hc
      · exact absurd hc (by simp)
      · next score hcv =>
        injection hc with hc
        subst hc
        exact map_fst_pairing _ _
    intro m hm
    simp only [List.mem_cons, List.not_mem_nil, or_false] at hm
    rcases hm with rfl | rfl | rfl | rfl | rfl
    · exact keys_degree_centrality g
    · exact map_fst_pairing _ _
    · exact map_fst_pairing _ _
    · exact heig
    · exact map_fst_pairing _ _

/-- Claim C9: on a nonempty graph, whenever the analyzer completes, each of
the five returned centrality mappings is keyed by exactly the graph's node
list — no node misses a score and no extra key appears in any mapping. -/
theorem get_centralities_key_sets (betw clos pr : Graph → String → ℚ)
    (conv : Graph → Option (String → ℚ)) (g : Graph)
    (cents : List (List (String × ℚ)))
    (hne : g.nodes ≠ [])
    (h : get_centralities betw clos pr conv g = .ok cents) :
    ∀ m ∈ cents, m.map Prod.fst = g.nodes :=
  get_centralities_keys betw clos pr conv g cents h

/-- The key-set theorem applied to a concrete run on the one-edge graph. -/
theorem get_centralities_key_sets_witness :
    (degree_centrality (generate_network (dfOfRecords [("A","B")]))).map Prod.fst
      = (generate_network (dfOfRecords [("A","B")])).nodes :=
  get_centralities_key_sets zeroScore zeroScore zeroScore constConv
    (generate_network (dfOfRecords [("A","B")]))
    [degree_centrality (generate_network (dfOfRecords [("A","B")])),
     betweenness_centrality zeroScore (generate_network (dfOfRecords [("A","B")])),
     closeness_centrality zeroScore (generate_network (dfOfRecords [("A","B")])),
     (generate_network (dfOfRecords [("A","B")])).nodes.map (fun n => (n, (0 : ℚ))),
     pagerank zeroScore (generate_network (dfOfRecords [("A","B")]))]
    (by decide) rfl _ (List.mem_cons_self _ _)

/-- Claim C7: for every centrality mapping the analyzer returns on a
nonempty graph, the descending ranked list built by `sorted(...)` has
exactly one entry per graph node and is sorted non-increasing by score. -/
theorem ranked_lists_sorted (betw clos pr : Graph → String → ℚ)
    (conv : Graph → Option (String → ℚ)) (g : Graph)
    (cents : List (List (String × ℚ)))
    (hne : g.nodes ≠ [])
    (h : get_centralities betw clos pr conv g = .ok cents) :
    ∀ m ∈ cents, (sortDescByScore m).length = g.nodes.length ∧
      List.Sorted scoreGE (sortDescByScore m) := by
  intro m hm
  have hkeys := get_centralities_keys betw clos pr conv g cents h m hm
  constructor
  · calc (sortDescByScore m).length = m.length :=
        (List.perm_insertionSort scoreGE m).length_eq
      _ = (m.map Prod.fst).length := (List.length_map m Prod.fst).symm
      _ = g.nodes.length := by rw [hkeys]
  · exact List.sorted_insertionSort scoreGE m

/-- The ranking theorem applied to the same concrete run. -/
theorem ranked_lists_sorted_witness :
    (sortDescByScore (degree_centrality
        (generate_network (dfOfRecords [("A","B")])))).length
        = (generate_network (dfOfRecords [("A","B")])).nodes.length ∧
      List.Sorted scoreGE (sortDescByScore (degree_centrality
        (generate_network (dfOfRecords [("A","B")])))) :=
  ranked_lists_sorted zeroScore zeroScore zeroScore constConv
    (generate_network (dfOfRecords [("A","B")]))
    [degree_centrality (generate_network (dfOfRecords [("A","B")])),
     betweenness_centrality zeroScore (generate_network (dfOfRecords [("A","B")])),
     closeness_centrality zeroScore (generate_network (dfOfRecords [("A","B")])),
     (generate_network (dfOfRecords [("A","B")])).nodes.map (fun n => (n, (0 : ℚ))),
     pagerank zeroScore (generate_network (dfOfRecords [("A","B")]))]
    (by decide) rfl _ (List.mem_cons_self _ _)
